import Mathlib

/-!
# Verification of the muxet HTTP client (`src/v1/muxet.go`, `src/v1/methods.go`)

A shallow embedding of the `DoRequest` pipeline: URL resolution, header
merging, JSON body serialization, the pre-send (`BeforeRequest`) hook, the
retry loop with exponential backoff, the post-receive (`AfterResponse`)
hook, and output decoding.

External collaborators (the injected `HTTPDoer` transport, `net/url`,
`encoding/json`, MIME header canonicalization) are modelled as oracle
parameters (`Env`, `URLLib`); the control flow of `DoRequest` itself is
translated statement by statement from the Go source.  Side effects that
the claims quantify over (transport invocations, `time.Sleep` calls, hook
invocations, the single `json.Marshal`) are recorded in an event trace.

Machine arithmetic: `time.Duration` and `int` are Go `int64`; the sleep
computation `c.backoff * time.Duration(1<<attempt)` wraps at 64 bits, so
it is modelled with an explicit signed wrap `wrap64`.
-/

deriving instance DecidableEq for Except

namespace Muxet

/-! ## 64-bit signed wrap-around arithmetic (Go `int64` / `time.Duration`) -/

/-- Interpret an unbounded integer as a signed 64-bit value (two's
complement wrap-around), as Go `int64` arithmetic does on overflow. -/
def wrap64 (x : Int) : Int := (x + 2 ^ 63) % 2 ^ 64 - 2 ^ 63

/-- Go `1 << attempt` at type `int64` (`time.Duration`): bits shifted past
the top are discarded, so the value is `2 ^ attempt` wrapped to 64 bits. -/
def goShl1 (attempt : Nat) : Int := wrap64 (2 ^ attempt)

/-- The argument of `time.Sleep` in `muxet.go` lines 144 and 171:
`c.backoff * time.Duration(1<<attempt)`, an `int64` product. -/
def sleepDur (backoff : Int) (attempt : Nat) : Int := wrap64 (backoff * goShl1 attempt)

/-! ## String-keyed maps (Go `map[string]string`)

Modelled as association lists; `hset` is Go map assignment (overwrite the
key if present, else append) and `hget` is Go map lookup. -/

/-- Go `m[k] = v` on a `map[string]string`. -/
def hset : List (String × String) → String → String → List (String × String)
  | [], k, v => [(k, v)]
  | p :: rest, k, v => if p.1 = k then (k, v) :: rest else p :: hset rest k v

/-- Go `m[k]` lookup on a `map[string]string`. -/
def hget : List (String × String) → String → Option String
  | [], _ => none
  | p :: rest, k => if p.1 = k then some p.2 else hget rest k

/-- The key set of a header map. -/
def hkeys (m : List (String × String)) : List String := m.map Prod.fst

/-- The header merge of `DoRequest` (muxet.go lines 82-88): make a fresh
map, copy the client defaults into it, then copy the per-call overrides
over it. -/
def mergeHeaders (defaults overrides : List (String × String)) :
    List (String × String) :=
  overrides.foldl (fun m p => hset m p.1 p.2)
    (defaults.foldl (fun m p => hset m p.1 p.2) [])

/-! ## Data model -/

/-- The body of an `*http.Response`: an `io.Reader`.  `readResult` is what
`io.ReadAll` returns on the stream in its current position. -/
structure BodyStream where
  readResult : Except String String
  deriving Repr, DecidableEq

/-- `io.ReadAll` on a response body: yields everything remaining (or a
read error) and leaves the stream exhausted, so that a second `ReadAll`
returns the empty string. -/
def ioReadAll (s : BodyStream) : Except String String × BodyStream :=
  (s.readResult, ⟨Except.ok ""⟩)

/-- An `*http.Response` as the transport returns it. -/
structure HttpResp where
  statusCode : Int
  header : List (String × List String)
  body : BodyStream
  deriving Repr, DecidableEq

/-- Outcome of one `c.client.Do(req)` call: Go returns `(nil, err)` or a
response. -/
inductive TransportOutcome where
  | failure (e : String)
  | success (r : HttpResp)
  deriving Repr, DecidableEq

/-- The muxet `Request` descriptor passed to the `BeforeRequest` hook
(muxet.go lines 15-21).  The `Context` field has no observable effect in
the modelled claims and is omitted. -/
structure Request (β : Type) where
  method : String
  url : String
  headers : List (String × String)
  body : Option β

/-- The muxet `Response` descriptor passed to the `AfterResponse` hook
(muxet.go lines 24-29).  The `Raw` handle is the transport response
itself, carried separately in the model. -/
structure MResponse where
  statusCode : Int
  headers : List (String × List String)
  body : String
  deriving Repr, DecidableEq

/-- Construction of the response descriptor (muxet.go lines 153-158). -/
def mkMResponse (r : HttpResp) (rawBody : String) : MResponse :=
  ⟨r.statusCode, r.header, rawBody⟩

/-- The muxet `Client` (muxet.go lines 46-56).  The injected `HTTPDoer`
and logger live in `Env` (the logger only emits text and is not modelled).
Hooks mutate their descriptor in place in Go; here they return the
updated descriptor. -/
structure Client (β : Type) where
  headers : List (String × String)
  timeout : Int
  BaseURL : String
  maxRetries : Int
  backoff : Int
  BeforeRequest : Option (Request β → Except String (Request β))
  AfterResponse : Option (MResponse → Except String MResponse)

/-- `NewClient` defaults (muxet.go lines 59-67); 5s timeout in
nanoseconds. -/
def NewClient (β : Type) : Client β :=
  ⟨[], 5000000000, "", 0, 0, none, none⟩

/-- `SetHeader` (methods.go). -/
def SetHeader (c : Client β) (key value : String) : Client β :=
  { c with headers := hset c.headers key value }

/-- `SetBaseURL` (methods.go). -/
def SetBaseURL (c : Client β) (base : String) : Client β :=
  { c with BaseURL := base }

/-- `SetMaxRetries` (methods.go lines 230-233): stores `n` unchecked. -/
def SetMaxRetries (c : Client β) (n : Int) : Client β :=
  { c with maxRetries := n }

/-- `SetBackoff` (methods.go). -/
def SetBackoff (c : Client β) (d : Int) : Client β :=
  { c with backoff := d }

/-- `SetBeforeRequestHook` (methods.go). -/
def SetBeforeRequestHook (c : Client β) (fn : Request β → Except String (Request β)) :
    Client β :=
  { c with BeforeRequest := some fn }

/-- `SetAfterResponseHook` (methods.go). -/
def SetAfterResponseHook (c : Client β) (fn : MResponse → Except String MResponse) :
    Client β :=
  { c with AfterResponse := some fn }

/-- The `net/url` operations `resolveURL` uses, as an oracle: `parse` is
`url.Parse`, `isAbs` is `(*URL).IsAbs`, `resolveReference` is
`(*URL).ResolveReference`, `render` is `(*URL).String`. -/
structure URLLib (U : Type) where
  parse : String → Except String U
  isAbs : U → Bool
  resolveReference : U → U → U
  render : U → String

/-- The `*http.Request` handed to the transport after muxet.go lines
116-132: method, URL, the headers written with `req.Header.Set`, and the
body reader's bytes. -/
structure BuiltRequest where
  method : String
  url : String
  header : List (String × String)
  body : Option String
  deriving Repr, DecidableEq

/-- Oracles for the remaining external collaborators of `DoRequest`:
`marshal` is `json.Marshal`, `unmarshal` is `json.Unmarshal`, `transport`
is the injected `HTTPDoer` (indexed by how many calls were made before),
`newRequest` is the failure behaviour of `http.NewRequestWithContext`
on a (method, url) pair, and `canon` is the MIME header key
canonicalization applied by `http.Header.Set` and `Get`. -/
structure Env (β υ : Type) where
  marshal : β → Except String String
  unmarshal : String → Except String υ
  transport : Nat → BuiltRequest → TransportOutcome
  newRequest : String → String → Option String
  canon : String → String

/-- The `out any` argument of `DoRequest`: absent, a `*string`, or a
JSON-decodable pointer (muxet.go lines 175-184). -/
inductive OutTarget where
  | noOut
  | strPtr
  | jsonPtr
  deriving Repr, DecidableEq

/-- What `DoRequest` stored through the `out` pointer. -/
inductive Written (υ : Type) where
  | str (s : String)
  | json (v : υ)
  deriving Repr, DecidableEq

/-- The retryable error recorded in `lastErr` (muxet.go lines 140 and
170): a transport error or the formatted `"HTTP %d: %s"` status error. -/
inductive LastErr where
  | network (e : String)
  | httpStatus (code : Int) (body : String)
  deriving Repr, DecidableEq

/-- The non-nil errors `DoRequest` can return, one per `fmt.Errorf` site
in muxet.go. -/
inductive MErr where
  | invalidRequestURL (e : String)
  | invalidBaseURL (e : String)
  | beforeHookFailed (e : String)
  | marshalFailed (e : String)
  | newRequestFailed (e : String)
  | readBodyFailed (e : String)
  | afterHookFailed (e : String)
  | decodeFailed (e : String)
  | exhausted (attempts : Int) (last : Option LastErr)
  deriving Repr, DecidableEq

/-- Observable side effects of `DoRequest`, in order: the pre-send hook
call, the one `json.Marshal`, each transport invocation (with the request
it was handed), each `time.Sleep` (with its duration argument), and each
post-receive hook call (with the descriptor it was handed). -/
inductive Ev where
  | beforeHook
  | marshalled (bs : String)
  | transportCall (r : BuiltRequest)
  | slept (d : Int)
  | afterHook (r : MResponse)
  deriving Repr, DecidableEq

/-- The outcome of a `DoRequest` call: the client state after the call
(Go `DoRequest` assigns to no field of `c`), the returned
`*http.Response`, the returned error, what was written through `out`,
and the event trace. -/
structure DoResult (β υ : Type) where
  clientAfter : Client β
  resp : Option HttpResp
  err : Option MErr
  written : Option (Written υ)
  trace : List Ev

/-- Outcome of one iteration of the retry loop: an early `return`
(muxet.go lines 123, 150, 162, 181, 186) or a `continue` after recording
a retryable failure and sleeping (lines 140-145 and 168-172). -/
inductive Step (υ : Type) where
  | done (resp : Option HttpResp) (err : Option MErr) (written : Option (Written υ))
      (evs : List Ev)
  | retry (resp : Option HttpResp) (lastErr : LastErr) (evs : List Ev)

/-! ## The pipeline -/

/-- `resolveURL` (muxet.go lines 192-205). -/
def resolveURL (lib : URLLib U) (c : Client β) (input : String) :
    Except MErr String :=
  match lib.parse input with
  | .error e => .error (.invalidRequestURL e)
  | .ok u =>
    if lib.isAbs u ∨ c.BaseURL = "" then .ok input
    else
      match lib.parse c.BaseURL with
      | .error e => .error (.invalidBaseURL e)
      | .ok base => .ok (lib.render (lib.resolveReference base u))

/-- Construction of the transport-level request, muxet.go lines 116-132:
the body reader over the fixed serialized bytes (only when the descriptor
body is non-nil), `req.Header.Set` for each merged header (keys
canonicalized), and the default `Content-Type: application/json` when a
body is present and no content type was given. -/
def buildRequest (env : Env β υ) (muxReq : Request β) (origBody : String) :
    BuiltRequest :=
  let reqBody : Option String := if muxReq.body.isSome then some origBody else none
  let hdr0 : List (String × String) :=
    muxReq.headers.foldl (fun h p => hset h (env.canon p.1) p.2) []
  let hdr1 : List (String × String) :=
    if muxReq.body.isSome ∧ hget hdr0 (env.canon "Content-Type") = none then
      hset hdr0 (env.canon "Content-Type") "application/json"
    else hdr0
  ⟨muxReq.method, muxReq.url, hdr1, reqBody⟩

/-- The post-receive hook step (muxet.go lines 160-164): the hook's
outcome when one is configured, else the descriptor unchanged.  In Go
the hook mutates the descriptor in place; here it returns the mutated
descriptor, which `DoRequest` never reads (the code after line 164 uses
only `resp` and `rawBody`). -/
def hookOutcome (c : Client β) (mr : MResponse) : Except String MResponse :=
  match c.AfterResponse with
  | some h => h mr
  | none => .ok mr

/-- The events of one loop iteration that produced a response and read
its body: the transport call, then the post-receive hook call when a hook
is configured. -/
def hookCallEvs (c : Client β) (B : BuiltRequest) (mr : MResponse) : List Ev :=
  match c.AfterResponse with
  | some _ => [.transportCall B, .afterHook mr]
  | none => [.transportCall B]

/-- One iteration of the retry loop (muxet.go lines 116-186), for loop
index `attempt`: build the request, call the transport, read the body,
run the post-receive hook, check the status, decode.  A transport error
or a non-2xx status records `lastErr`, sleeps
`c.backoff * time.Duration(1<<attempt)` and continues.  Note the non-2xx
branch (lines 168-172) re-reads `resp.Body`, which line 148 already
exhausted, so `bodyBytes` there is what a second `io.ReadAll` yields. -/
def attemptStep (env : Env β υ) (c : Client β) (muxReq : Request β)
    (origBody : String) (out : OutTarget) (attempt : Nat) : Step υ :=
  match env.newRequest muxReq.method muxReq.url with
  | some e => .done none (some (.newRequestFailed e)) none []
  | none =>
    let req := buildRequest env muxReq origBody
    match env.transport attempt req with
    | .failure e =>
      .retry none (.network e)
        [.transportCall req, .slept (sleepDur c.backoff attempt)]
    | .success r =>
      match ioReadAll r.body with
      | (.error e, _) => .done (some r) (some (.readBodyFailed e)) none [.transportCall req]
      | (.ok rawBody, drained) =>
        let muxResp := mkMResponse r rawBody
        match hookOutcome c muxResp with
        | .error e => .done (some r) (some (.afterHookFailed e)) none (hookCallEvs c req muxResp)
        | .ok _ =>
          if r.statusCode < 200 ∨ 300 ≤ r.statusCode then
            let second := ioReadAll drained
            let bodyBytes := match second.1 with | .ok b => b | .error _ => ""
            .retry (some r) (.httpStatus r.statusCode bodyBytes)
              (hookCallEvs c req muxResp ++ [.slept (sleepDur c.backoff attempt)])
          else
            match out with
            | .noOut => .done (some r) none none (hookCallEvs c req muxResp)
            | .strPtr => .done (some r) none (some (.str rawBody)) (hookCallEvs c req muxResp)
            | .jsonPtr =>
              match env.unmarshal rawBody with
              | .error e => .done (some r) (some (.decodeFailed e)) none (hookCallEvs c req muxResp)
              | .ok v => .done (some r) none (some (.json v)) (hookCallEvs c req muxResp)

/-- The retry loop `for attempt := 0; attempt <= c.maxRetries; attempt++`
(muxet.go lines 115-189) as structural recursion on the remaining
iteration count.  When the loop exhausts, line 189 returns the current
`resp` and the `ExhaustedRetries`-style error reporting
`c.maxRetries + 1` attempts (an `int64` value) wrapping `lastErr`. -/
def doAttempts (env : Env β υ) (c : Client β) (muxReq : Request β)
    (origBody : String) (out : OutTarget) :
    Nat → Nat → Option HttpResp → Option LastErr → DoResult β υ
  | 0, _, resp, lastErr =>
    ⟨c, resp, some (.exhausted (wrap64 (c.maxRetries + 1)) lastErr), none, []⟩
  | fuel + 1, attempt, _resp, _lastErr =>
    match attemptStep env c muxReq origBody out attempt with
    | .done r e w evs => ⟨c, r, e, w, evs⟩
    | .retry r le evs =>
      let R := doAttempts env c muxReq origBody out fuel (attempt + 1) r (some le)
      ⟨R.clientAfter, R.resp, R.err, R.written, evs ++ R.trace⟩

/-- Body serialization and entry into the retry loop (muxet.go lines
104-115): `json.Marshal` exactly once when the (possibly hook-mutated)
descriptor body is non-nil, then the loop with `maxRetries + 1`
iterations (zero when `maxRetries` is negative — Go
`attempt <= c.maxRetries` fails immediately). -/
def doMarshalAndLoop (env : Env β υ) (c : Client β) (muxReq : Request β)
    (out : OutTarget) (pre : List Ev) : DoResult β υ :=
  match muxReq.body with
  | some bv =>
    match env.marshal bv with
    | .error e => ⟨c, none, some (.marshalFailed e), none, pre⟩
    | .ok bs =>
      let R := doAttempts env c muxReq bs out (c.maxRetries + 1).toNat 0 none none
      ⟨R.clientAfter, R.resp, R.err, R.written, (pre ++ [.marshalled bs]) ++ R.trace⟩
  | none =>
    let R := doAttempts env c muxReq "" out (c.maxRetries + 1).toNat 0 none none
    ⟨R.clientAfter, R.resp, R.err, R.written, pre ++ R.trace⟩

/-- The fresh request descriptor of muxet.go lines 90-96: resolved URL
and merged headers. -/
def initialRequest (c : Client β) (method fullURL : String)
    (headers : List (String × String)) (body : Option β) : Request β :=
  ⟨method, fullURL, mergeHeaders c.headers headers, body⟩

/-- `DoRequest` (muxet.go lines 69-190).  The `ctx == nil` branch only
derives a timeout context, with no effect observable by the claims. -/
def DoRequest (lib : URLLib U) (env : Env β υ) (c : Client β)
    (method rawURL : String) (body : Option β) (out : OutTarget)
    (headers : List (String × String)) : DoResult β υ :=
  match resolveURL lib c rawURL with
  | .error e => ⟨c, none, some e, none, []⟩
  | .ok fullURL =>
    let muxReq := initialRequest c method fullURL headers body
    match c.BeforeRequest with
    | none => doMarshalAndLoop env c muxReq out []
    | some bh =>
      match bh muxReq with
      | .error e => ⟨c, none, some (.beforeHookFailed e), none, [.beforeHook]⟩
      | .ok muxReq2 => doMarshalAndLoop env c muxReq2 out [.beforeHook]

/-- `Get` (methods.go): no body. -/
def Get (lib : URLLib U) (env : Env β υ) (c : Client β) (url : String)
    (out : OutTarget) (headers : List (String × String)) : DoResult β υ :=
  DoRequest lib env c "GET" url none out headers

/-- `Post` (methods.go): forwards the body. -/
def Post (lib : URLLib U) (env : Env β υ) (c : Client β) (url : String)
    (body : Option β) (out : OutTarget) (headers : List (String × String)) :
    DoResult β υ :=
  DoRequest lib env c "POST" url body out headers

/-- `Put` (methods.go): forwards the body. -/
def Put (lib : URLLib U) (env : Env β υ) (c : Client β) (url : String)
    (body : Option β) (out : OutTarget) (headers : List (String × String)) :
    DoResult β υ :=
  DoRequest lib env c "PUT" url body out headers

/-- `Delete` (methods.go): no body. -/
def Delete (lib : URLLib U) (env : Env β υ) (c : Client β) (url : String)
    (out : OutTarget) (headers : List (String × String)) : DoResult β υ :=
  DoRequest lib env c "DELETE" url none out headers

/-! ## Trace observations -/

/-- The requests handed to the transport, in order. -/
def transportCalls (t : List Ev) : List BuiltRequest :=
  t.filterMap fun e => match e with | .transportCall r => some r | _ => none

/-- Number of transport invocations. -/
def transportCount (t : List Ev) : Nat := (transportCalls t).length

/-- The `time.Sleep` durations, in order. -/
def sleeps (t : List Ev) : List Int :=
  t.filterMap fun e => match e with | .slept d => some d | _ => none

/-- Number of pre-send hook invocations. -/
def beforeHookCount (t : List Ev) : Nat :=
  (t.filter fun e => match e with | .beforeHook => true | _ => false).length

/-- Number of post-receive hook invocations. -/
def afterHookCount (t : List Ev) : Nat :=
  (t.filter fun e => match e with | .afterHook _ => true | _ => false).length

/-- Number of `json.Marshal` calls. -/
def marshalCount (t : List Ev) : Nat :=
  (t.filter fun e => match e with | .marshalled _ => true | _ => false).length

/-- The body bytes handed to the transport at each invocation. -/
def sentBodies (t : List Ev) : List (Option String) :=
  (transportCalls t).map BuiltRequest.body

/-- The events contributed by the part of the call preceding the body
serialization: the pre-send hook call, when a hook is configured. -/
def hookPrefix (c : Client β) : List Ev :=
  match c.BeforeRequest with
  | some _ => [.beforeHook]
  | none => []

/-- The combined pre-send step, muxet.go lines 98-102: the hook outcome
when one is configured, else the descriptor unchanged. -/
def preOutcome (c : Client β) (q : Request β) : Except String (Request β) :=
  match c.BeforeRequest with
  | none => .ok q
  | some bh => bh q

/-- `origBody` after muxet.go lines 104-110: the zero value for a nil
descriptor body, else the successful `json.Marshal` output. -/
def marshalsTo (env : Env β υ) (b : Option β) (s : String) : Prop :=
  match b with
  | none => s = ""
  | some bv => env.marshal bv = Except.ok s

/-- The `.marshalled` event emitted before the loop, when the descriptor
body is non-nil. -/
def marshalEvs (q : Request β) (ob : String) : List Ev :=
  match q.body with
  | some _ => [.marshalled ob]
  | none => []

/-- Attempt `i` produced a response whose body was read successfully. -/
def attemptReadOk (env : Env β υ) (B : BuiltRequest) (i : Nat) : Bool :=
  match env.transport i B with
  | .failure _ => false
  | .success r => match r.body.readResult with | .ok _ => true | .error _ => false

/-- Attempt `i` is a retryable failure: the transport errored, or it
returned a response whose body was read, whose post-receive hook (if any)
succeeded, and whose status is outside [200,300). -/
def retryableAt (env : Env β υ) (c : Client β) (B : BuiltRequest) (i : Nat) : Prop :=
  match env.transport i B with
  | .failure _ => True
  | .success r =>
    match r.body.readResult with
    | .error _ => False
    | .ok raw =>
      (∃ r2, hookOutcome c (mkMResponse r raw) = Except.ok r2) ∧
      (r.statusCode < 200 ∨ 300 ≤ r.statusCode)

/-- The trace of a run of consecutive failing attempts starting at loop
index `attempt`: each one calls the transport and sleeps. -/
def failTrace (B : BuiltRequest) (backoff : Int) : Nat → Nat → List Ev
  | _, 0 => []
  | attempt, fuel + 1 =>
    [.transportCall B, .slept (sleepDur backoff attempt)] ++
      failTrace B backoff (attempt + 1) fuel

/-- `[a, a+1, ..., a+n-1]`. -/
def natRange (a n : Nat) : List Nat := (List.range n).map (a + ·)

/-! ## Arithmetic lemmas -/

theorem wrap64_eq_self (x : Int) (h1 : -(2 ^ 63) ≤ x) (h2 : x < 2 ^ 63) :
    wrap64 x = x := by
  unfold wrap64
  rw [Int.emod_eq_of_lt (by omega) (by omega)]
  omega

theorem wrap64_add_mul_left (x k : Int) : wrap64 (x + 2 ^ 64 * k) = wrap64 x := by
  unfold wrap64
  have h : x + 2 ^ 64 * k + 2 ^ 63 = x + 2 ^ 63 + 2 ^ 64 * k := by ring
  rw [h, Int.add_mul_emod_self_left]

theorem wrap64_mul_wrap64 (a b : Int) : wrap64 (a * wrap64 b) = wrap64 (a * b) := by
  have h : wrap64 b = b - 2 ^ 64 * ((b + 2 ^ 63) / 2 ^ 64) := by
    unfold wrap64
    rw [Int.emod_def]
    ring
  rw [h]
  have h2 : a * (b - 2 ^ 64 * ((b + 2 ^ 63) / 2 ^ 64)) =
      a * b + 2 ^ 64 * (-(a * ((b + 2 ^ 63) / 2 ^ 64))) := by ring
  rw [h2, wrap64_add_mul_left]

/-- Whenever the mathematical product `backoff * 2 ^ i` fits in `int64`,
the slept duration is exactly that product. -/
theorem sleepDur_eq_exact (backoff : Int) (i : Nat)
    (h1 : -(2 ^ 63) ≤ backoff * 2 ^ i) (h2 : backoff * 2 ^ i < 2 ^ 63) :
    sleepDur backoff i = backoff * 2 ^ i := by
  unfold sleepDur goShl1
  rw [wrap64_mul_wrap64]
  exact wrap64_eq_self _ h1 h2

/-! ## Header-map lemmas -/

theorem hget_hset_self (m : List (String × String)) (k v : String) :
    hget (hset m k v) k = some v := by
  induction m with
  | nil => simp [hset, hget]
  | cons p rest ih =>
    by_cases h : p.1 = k
    · simp [hset, h, hget]
    · simp [hset, h, hget, ih]

theorem hget_hset_ne (m : List (String × String)) (k k2 v : String)
    (h : k ≠ k2) : hget (hset m k v) k2 = hget m k2 := by
  induction m with
  | nil => simp [hset, hget, h]
  | cons p rest ih =>
    by_cases hp : p.1 = k
    · have hpk : p.1 ≠ k2 := by rw [hp]; exact h
      simp [hset, hp, hget, h, hpk]
    · by_cases hq : p.1 = k2
      · simp [hset, hp, hget, hq, Ne.symm h]
      · simp [hset, hp, hget, hq, ih]

/-- Last-occurrence lookup: the value the key holds after inserting the
list into a map front to back. -/
def lookupLast : List (String × String) → String → Option String
  | [], _ => none
  | p :: rest, k =>
    match lookupLast rest k with
    | some v => some v
    | none => if p.1 = k then some p.2 else none

theorem hget_foldl_hset (os : List (String × String)) (m : List (String × String))
    (k : String) :
    hget (os.foldl (fun a p => hset a p.1 p.2) m) k =
      match lookupLast os k with
      | some v => some v
      | none => hget m k := by
  induction os generalizing m with
  | nil => simp [lookupLast]
  | cons p rest ih =>
    simp only [List.foldl_cons, lookupLast, ih]
    cases h : lookupLast rest k with
    | some v => simp
    | none =>
      by_cases hp : p.1 = k
      · subst hp
        simp [hget_hset_self]
      · simp [hp, hget_hset_ne m p.1 k p.2 hp]

theorem hget_eq_none_iff (m : List (String × String)) (k : String) :
    hget m k = none ↔ k ∉ hkeys m := by
  induction m with
  | nil => simp [hget, hkeys]
  | cons p rest ih =>
    by_cases hp : p.1 = k
    · simp [hget, hp, hkeys]
    · have hkp : ¬k = p.1 := fun hh => hp hh.symm
      rw [show hget (p :: rest) k = hget rest k by simp [hget, hp], ih]
      simp [hkeys, hkp]

theorem lookupLast_eq_none (m : List (String × String)) (k : String)
    (h : k ∉ hkeys m) : lookupLast m k = none := by
  induction m with
  | nil => rfl
  | cons p rest ih =>
    have h1 : p.1 ≠ k := fun he => h (by simp [hkeys, he])
    have h2 : k ∉ hkeys rest := fun hm =>
      h (by
        simp only [hkeys, List.map_cons, List.mem_cons]
        exact Or.inr (by simpa [hkeys] using hm))
    simp [lookupLast, ih h2, h1]

theorem lookupLast_eq_hget (m : List (String × String)) (k : String)
    (h : (hkeys m).Nodup) : lookupLast m k = hget m k := by
  induction m with
  | nil => rfl
  | cons p rest ih =>
    have hn : p.1 ∉ hkeys rest ∧ (hkeys rest).Nodup := by
      simpa [hkeys, List.nodup_cons] using h
    by_cases hp : p.1 = k
    · have : lookupLast rest k = none := lookupLast_eq_none rest k (hp ▸ hn.1)
      simp [lookupLast, hget, this, hp]
    · rw [show lookupLast (p :: rest) k =
          (match lookupLast rest k with
           | some v => some v
           | none => if p.1 = k then some p.2 else none) from rfl,
        ih hn.2]
      cases hg : hget rest k with
      | some v => simp [hget, hp, hg]
      | none => simp [hget, hp, hg]

/-- The merged header map, looked up at a key: the last per-call value if
the key is overridden, else the last default value. -/
theorem hget_mergeHeaders (ds os : List (String × String)) (k : String) :
    hget (mergeHeaders ds os) k =
      match lookupLast os k with
      | some v => some v
      | none => lookupLast ds k := by
  unfold mergeHeaders
  rw [hget_foldl_hset, hget_foldl_hset]
  cases lookupLast os k with
  | some v => simp
  | none =>
    cases lookupLast ds k with
    | some v => simp [hget]
    | none => simp [hget]

/-! ## Trace bookkeeping lemmas -/

/-- The events of a `Step`. -/
def stepEvs : Step υ → List Ev
  | .done _ _ _ evs => evs
  | .retry _ _ evs => evs

theorem transportCalls_append (a b : List Ev) :
    transportCalls (a ++ b) = transportCalls a ++ transportCalls b :=
  List.filterMap_append a b _

theorem sleeps_append (a b : List Ev) :
    sleeps (a ++ b) = sleeps a ++ sleeps b :=
  List.filterMap_append a b _

theorem transportCount_append (a b : List Ev) :
    transportCount (a ++ b) = transportCount a + transportCount b := by
  unfold transportCount
  rw [transportCalls_append, List.length_append]

theorem beforeHookCount_append (a b : List Ev) :
    beforeHookCount (a ++ b) = beforeHookCount a + beforeHookCount b := by
  unfold beforeHookCount
  rw [List.filter_append, List.length_append]

theorem afterHookCount_append (a b : List Ev) :
    afterHookCount (a ++ b) = afterHookCount a + afterHookCount b := by
  unfold afterHookCount
  rw [List.filter_append, List.length_append]

theorem marshalCount_append (a b : List Ev) :
    marshalCount (a ++ b) = marshalCount a + marshalCount b := by
  unfold marshalCount
  rw [List.filter_append, List.length_append]

theorem natRange_zero (a : Nat) : natRange a 0 = [] := rfl

theorem natRange_succ (a n : Nat) : natRange a (n + 1) = a :: natRange (a + 1) n := by
  unfold natRange
  rw [List.range_succ_eq_map, List.map_cons, List.map_map]
  refine congrArg₂ _ (by omega) (List.map_congr_left fun i _ => ?_)
  simp [Function.comp]
  omega

theorem natRange_eq_range (n : Nat) : natRange 0 n = List.range n := by
  unfold natRange
  have h : (fun x => 0 + x) = fun x : Nat => x := by
    funext x
    omega
  rw [h]
  simp

/-! ## Loop structure lemmas -/

/-- `DoRequest` assigns to no field of the client. -/
theorem doAttempts_client (env : Env β υ) (c : Client β) (q : Request β)
    (ob : String) (out : OutTarget) :
    ∀ (fuel attempt : Nat) (resp : Option HttpResp) (lastErr : Option LastErr),
      (doAttempts env c q ob out fuel attempt resp lastErr).clientAfter = c := by
  intro fuel
  induction fuel with
  | zero =>
    intro attempt resp lastErr
    rfl
  | succ f ih =>
    intro attempt resp lastErr
    simp only [doAttempts]
    cases attemptStep env c q ob out attempt with
    | done rr e w evs => rfl
    | retry rr le evs => exact ih _ _ _

/-! ## Shape of a single loop iteration -/

theorem attemptStep_newReqFail (env : Env β υ) (c : Client β) (q : Request β)
    (ob : String) (out : OutTarget) (attempt : Nat) (e : String)
    (hn : env.newRequest q.method q.url = some e) :
    attemptStep env c q ob out attempt = .done none (some (.newRequestFailed e)) none [] := by
  simp [attemptStep, hn]

theorem attemptStep_netFail (env : Env β υ) (c : Client β) (q : Request β)
    (ob : String) (out : OutTarget) (attempt : Nat) (e : String)
    (hn : env.newRequest q.method q.url = none)
    (ht : env.transport attempt (buildRequest env q ob) = .failure e) :
    attemptStep env c q ob out attempt =
      .retry none (.network e)
        [.transportCall (buildRequest env q ob), .slept (sleepDur c.backoff attempt)] := by
  simp [attemptStep, hn, ht]

theorem attemptStep_readFail (env : Env β υ) (c : Client β) (q : Request β)
    (ob : String) (out : OutTarget) (attempt : Nat) (r : HttpResp) (e : String)
    (hn : env.newRequest q.method q.url = none)
    (ht : env.transport attempt (buildRequest env q ob) = .success r)
    (hr : r.body.readResult = .error e) :
    attemptStep env c q ob out attempt =
      .done (some r) (some (.readBodyFailed e)) none
        [.transportCall (buildRequest env q ob)] := by
  simp [attemptStep, hn, ht, ioReadAll, hr]

theorem attemptStep_hookErr (env : Env β υ) (c : Client β) (q : Request β)
    (ob : String) (out : OutTarget) (attempt : Nat) (r : HttpResp) (raw e : String)
    (hn : env.newRequest q.method q.url = none)
    (ht : env.transport attempt (buildRequest env q ob) = .success r)
    (hr : r.body.readResult = .ok raw)
    (hh : hookOutcome c (mkMResponse r raw) = .error e) :
    attemptStep env c q ob out attempt =
      .done (some r) (some (.afterHookFailed e)) none
        (hookCallEvs c (buildRequest env q ob) (mkMResponse r raw)) := by
  simp [attemptStep, hn, ht, ioReadAll, hr, hh]

theorem attemptStep_statusRetry (env : Env β υ) (c : Client β) (q : Request β)
    (ob : String) (out : OutTarget) (attempt : Nat) (r : HttpResp) (raw : String)
    (r2 : MResponse)
    (hn : env.newRequest q.method q.url = none)
    (ht : env.transport attempt (buildRequest env q ob) = .success r)
    (hr : r.body.readResult = .ok raw)
    (hh : hookOutcome c (mkMResponse r raw) = .ok r2)
    (hst : r.statusCode < 200 ∨ 300 ≤ r.statusCode) :
    attemptStep env c q ob out attempt =
      .retry (some r) (.httpStatus r.statusCode "")
        (hookCallEvs c (buildRequest env q ob) (mkMResponse r raw) ++
          [.slept (sleepDur c.backoff attempt)]) := by
  simp [attemptStep, hn, ht, ioReadAll, hr, hh, hst]

theorem attemptStep_success (env : Env β υ) (c : Client β) (q : Request β)
    (ob : String) (out : OutTarget) (attempt : Nat) (r : HttpResp) (raw : String)
    (r2 : MResponse)
    (hn : env.newRequest q.method q.url = none)
    (ht : env.transport attempt (buildRequest env q ob) = .success r)
    (hr : r.body.readResult = .ok raw)
    (hh : hookOutcome c (mkMResponse r raw) = .ok r2)
    (hst : ¬(r.statusCode < 200 ∨ 300 ≤ r.statusCode)) :
    attemptStep env c q ob out attempt =
      (match out with
       | .noOut => .done (some r) none none
           (hookCallEvs c (buildRequest env q ob) (mkMResponse r raw))
       | .strPtr => .done (some r) none (some (.str raw))
           (hookCallEvs c (buildRequest env q ob) (mkMResponse r raw))
       | .jsonPtr =>
         match env.unmarshal raw with
         | .error e => .done (some r) (some (.decodeFailed e)) none
             (hookCallEvs c (buildRequest env q ob) (mkMResponse r raw))
         | .ok v => .done (some r) none (some (.json v))
             (hookCallEvs c (buildRequest env q ob) (mkMResponse r raw))) := by
  simp [attemptStep, hn, ht, ioReadAll, hr, hh, hst]

/-! ## Counting the events of a single iteration -/

theorem hookCallEvs_calls (c : Client β) (B : BuiltRequest) (mr : MResponse) :
    transportCalls (hookCallEvs c B mr) = [B] := by
  cases hc : c.AfterResponse with
  | none => simp [hookCallEvs, hc, transportCalls]
  | some hk => simp [hookCallEvs, hc, transportCalls]

theorem hookCallEvs_after (c : Client β) (B : BuiltRequest) (mr : MResponse) :
    afterHookCount (hookCallEvs c B mr) =
      if c.AfterResponse.isSome = true then 1 else 0 := by
  cases hc : c.AfterResponse with
  | none => simp [hookCallEvs, hc, afterHookCount]
  | some hk => simp [hookCallEvs, hc, afterHookCount]

theorem hookCallEvs_before (c : Client β) (B : BuiltRequest) (mr : MResponse) :
    beforeHookCount (hookCallEvs c B mr) = 0 := by
  cases hc : c.AfterResponse with
  | none => simp [hookCallEvs, hc, beforeHookCount]
  | some hk => simp [hookCallEvs, hc, beforeHookCount]

theorem hookCallEvs_marshal (c : Client β) (B : BuiltRequest) (mr : MResponse) :
    marshalCount (hookCallEvs c B mr) = 0 := by
  cases hc : c.AfterResponse with
  | none => simp [hookCallEvs, hc, marshalCount]
  | some hk => simp [hookCallEvs, hc, marshalCount]

/-- Bookkeeping for one arbitrary iteration: it emits no pre-send-hook
and no marshal event; unless `http.NewRequestWithContext` fails it hands
the transport exactly the built request once; and (when a post-receive
hook is configured) it calls that hook exactly once iff the attempt
produced a response whose body was read. -/
theorem attemptStep_evs_facts (env : Env β υ) (c : Client β) (q : Request β)
    (ob : String) (out : OutTarget) (attempt : Nat) :
    beforeHookCount (stepEvs (attemptStep env c q ob out attempt)) = 0 ∧
    marshalCount (stepEvs (attemptStep env c q ob out attempt)) = 0 ∧
    (env.newRequest q.method q.url = none →
      transportCalls (stepEvs (attemptStep env c q ob out attempt)) =
        [buildRequest env q ob] ∧
      (c.AfterResponse.isSome = true →
        afterHookCount (stepEvs (attemptStep env c q ob out attempt)) =
          if attemptReadOk env (buildRequest env q ob) attempt = true then 1 else 0)) ∧
    (∀ e, env.newRequest q.method q.url = some e →
      stepEvs (attemptStep env c q ob out attempt) = []) := by
  cases hn : env.newRequest q.method q.url with
  | some e =>
    rw [attemptStep_newReqFail env c q ob out attempt e hn]
    simp [stepEvs, beforeHookCount, marshalCount]
  | none =>
    cases ht : env.transport attempt (buildRequest env q ob) with
    | failure e =>
      rw [attemptStep_netFail env c q ob out attempt e hn ht]
      simp [stepEvs, beforeHookCount, marshalCount, transportCalls, afterHookCount,
        attemptReadOk, ht]
    | success r =>
      cases hrr : r.body.readResult with
      | error e =>
        rw [attemptStep_readFail env c q ob out attempt r e hn ht hrr]
        simp [stepEvs, beforeHookCount, marshalCount, transportCalls, afterHookCount,
          attemptReadOk, ht, hrr]
      | ok raw =>
        have hro : attemptReadOk env (buildRequest env q ob) attempt = true := by
          simp [attemptReadOk, ht, hrr]
        cases hho : hookOutcome c (mkMResponse r raw) with
        | error e =>
          rw [attemptStep_hookErr env c q ob out attempt r raw e hn ht hrr hho]
          cases hca : c.AfterResponse <;>
            simp [stepEvs, hookCallEvs, hca, beforeHookCount, marshalCount,
              transportCalls, afterHookCount, hro]
        | ok r2 =>
          by_cases hst : r.statusCode < 200 ∨ 300 ≤ r.statusCode
          · rw [attemptStep_statusRetry env c q ob out attempt r raw r2 hn ht hrr hho hst]
            cases hca : c.AfterResponse <;>
              simp [stepEvs, hookCallEvs, hca, beforeHookCount, marshalCount,
                transportCalls, afterHookCount, hro]
          · rw [attemptStep_success env c q ob out attempt r raw r2 hn ht hrr hho hst]
            cases out with
            | noOut =>
              cases hca : c.AfterResponse <;>
                simp [stepEvs, hookCallEvs, hca, beforeHookCount, marshalCount,
                  transportCalls, afterHookCount, hro]
            | strPtr =>
              cases hca : c.AfterResponse <;>
                simp [stepEvs, hookCallEvs, hca, beforeHookCount, marshalCount,
                  transportCalls, afterHookCount, hro]
            | jsonPtr =>
              cases hu : env.unmarshal raw with
              | error e =>
                cases hca : c.AfterResponse <;>
                  simp [stepEvs, hu, hookCallEvs, hca, beforeHookCount, marshalCount,
                    transportCalls, afterHookCount, hro]
              | ok v =>
                cases hca : c.AfterResponse <;>
                  simp [stepEvs, hu, hookCallEvs, hca, beforeHookCount, marshalCount,
                    transportCalls, afterHookCount, hro]

/-- A retryable attempt makes the iteration `continue`, after exactly one
transport call. -/
theorem attemptStep_retryable (env : Env β υ) (c : Client β) (q : Request β)
    (ob : String) (out : OutTarget) (attempt : Nat)
    (hn : env.newRequest q.method q.url = none)
    (hret : retryableAt env c (buildRequest env q ob) attempt) :
    ∃ rr le evs, attemptStep env c q ob out attempt = .retry rr le evs ∧
      transportCalls evs = [buildRequest env q ob] := by
  unfold retryableAt at hret
  cases ht : env.transport attempt (buildRequest env q ob) with
  | failure e =>
    exact ⟨_, _, _, attemptStep_netFail env c q ob out attempt e hn ht,
      by simp [transportCalls]⟩
  | success r =>
    rw [ht] at hret
    cases hrr : r.body.readResult with
    | error e =>
      simp only [hrr] at hret
    | ok raw =>
      simp only [hrr] at hret
      obtain ⟨⟨r2, hr2⟩, hst⟩ := hret
      refine ⟨_, _, _,
        attemptStep_statusRetry env c q ob out attempt r raw r2 hn ht hrr hr2 hst, ?_⟩
      rw [transportCalls_append, hookCallEvs_calls]
      simp [transportCalls]

/-! ## Loop behaviour lemmas -/

/-- Unfolding one `done` iteration. -/
theorem doAttempts_first_done (env : Env β υ) (c : Client β) (q : Request β)
    (ob : String) (out : OutTarget) (fuel attempt : Nat) (resp : Option HttpResp)
    (lastErr : Option LastErr) (r : Option HttpResp) (e : Option MErr)
    (w : Option (Written υ)) (evs : List Ev)
    (hfuel : 0 < fuel)
    (hstep : attemptStep env c q ob out attempt = .done r e w evs) :
    doAttempts env c q ob out fuel attempt resp lastErr = ⟨c, r, e, w, evs⟩ := by
  cases fuel with
  | zero => omega
  | succ f => simp [doAttempts, hstep]

/-- A run in which the transport fails on every call: the loop burns all
its fuel, ends with `resp = nil` and the last attempt's transport error,
and the trace is one transport call plus one sleep per attempt. -/
theorem doAttempts_all_fail (env : Env β υ) (c : Client β) (q : Request β)
    (ob : String) (out : OutTarget) (f : Nat → String)
    (hn : env.newRequest q.method q.url = none)
    (hf : ∀ n r, env.transport n r = .failure (f n)) :
    ∀ (fuel attempt : Nat) (resp : Option HttpResp) (lastErr : Option LastErr),
      doAttempts env c q ob out fuel attempt resp lastErr =
        ⟨c, (match fuel with | 0 => resp | _ + 1 => none),
          some (.exhausted (wrap64 (c.maxRetries + 1))
            (match fuel with
             | 0 => lastErr
             | fl + 1 => some (.network (f (attempt + fl))))),
          none, failTrace (buildRequest env q ob) c.backoff attempt fuel⟩ := by
  intro fuel
  induction fuel with
  | zero =>
    intro attempt resp lastErr
    rfl
  | succ fl ih =>
    intro attempt resp lastErr
    have hstep := attemptStep_netFail env c q ob out attempt (f attempt) hn
      (hf attempt (buildRequest env q ob))
    simp only [doAttempts, hstep]
    rw [ih (attempt + 1) none (some (.network (f attempt)))]
    cases fl with
    | zero => simp [failTrace]
    | succ fl2 =>
      have he : attempt + 1 + fl2 = attempt + (fl2 + 1) := by omega
      simp [failTrace, he]

theorem transportCount_failTrace (B : BuiltRequest) (b : Int) :
    ∀ (n a : Nat), transportCount (failTrace B b a n) = n := by
  intro n
  induction n with
  | zero =>
    intro a
    rfl
  | succ m ih =>
    intro a
    show transportCount ([.transportCall B, .slept (sleepDur b a)] ++
      failTrace B b (a + 1) m) = m + 1
    rw [transportCount_append, ih (a + 1)]
    simp [transportCount, transportCalls]
    omega

theorem sleeps_failTrace (B : BuiltRequest) (b : Int) :
    ∀ (n a : Nat), sleeps (failTrace B b a n) = (natRange a n).map (sleepDur b) := by
  intro n
  induction n with
  | zero =>
    intro a
    rfl
  | succ m ih =>
    intro a
    show sleeps ([.transportCall B, .slept (sleepDur b a)] ++ failTrace B b (a + 1) m) =
      (natRange a (m + 1)).map (sleepDur b)
    rw [sleeps_append, ih (a + 1), natRange_succ]
    simp [sleeps]

/-- The loop never emits pre-send hook or marshal events. -/
theorem doAttempts_admin_counts (env : Env β υ) (c : Client β) (q : Request β)
    (ob : String) (out : OutTarget) :
    ∀ (fuel attempt : Nat) (resp : Option HttpResp) (lastErr : Option LastErr),
      beforeHookCount (doAttempts env c q ob out fuel attempt resp lastErr).trace = 0 ∧
      marshalCount (doAttempts env c q ob out fuel attempt resp lastErr).trace = 0 := by
  intro fuel
  induction fuel with
  | zero =>
    intro attempt resp lastErr
    exact ⟨rfl, rfl⟩
  | succ f ih =>
    intro attempt resp lastErr
    have hfacts := attemptStep_evs_facts env c q ob out attempt
    simp only [doAttempts]
    cases hs : attemptStep env c q ob out attempt with
    | done rr e w evs =>
      rw [hs] at hfacts
      simp only [stepEvs] at hfacts
      exact ⟨hfacts.1, hfacts.2.1⟩
    | retry rr le evs =>
      rw [hs] at hfacts
      have hrec := ih (attempt + 1) rr (some le)
      simp only [stepEvs] at hfacts
      refine ⟨?_, ?_⟩
      · simp [beforeHookCount_append, hfacts.1, hrec.1]
      · simp [marshalCount_append, hfacts.2.1, hrec.2]

/-- Every request the loop hands the transport is the same built
request. -/
theorem doAttempts_calls_replicate (env : Env β υ) (c : Client β) (q : Request β)
    (ob : String) (out : OutTarget) :
    ∀ (fuel attempt : Nat) (resp : Option HttpResp) (lastErr : Option LastErr),
      ∃ k, transportCalls (doAttempts env c q ob out fuel attempt resp lastErr).trace =
        List.replicate k (buildRequest env q ob) := by
  intro fuel
  induction fuel with
  | zero =>
    intro attempt resp lastErr
    exact ⟨0, rfl⟩
  | succ f ih =>
    intro attempt resp lastErr
    have hfacts := attemptStep_evs_facts env c q ob out attempt
    simp only [doAttempts]
    cases hs : attemptStep env c q ob out attempt with
    | done rr e w evs =>
      rw [hs] at hfacts
      simp only [stepEvs] at hfacts
      cases hn : env.newRequest q.method q.url with
      | some e2 =>
        refine ⟨0, ?_⟩
        simp [hfacts.2.2.2 e2 hn, transportCalls]
      | none =>
        refine ⟨1, ?_⟩
        simp [(hfacts.2.2.1 hn).1]
    | retry rr le evs =>
      rw [hs] at hfacts
      simp only [stepEvs] at hfacts
      obtain ⟨k, hk⟩ := ih (attempt + 1) rr (some le)
      cases hn : env.newRequest q.method q.url with
      | some e2 =>
        refine ⟨k, ?_⟩
        have hnil : transportCalls ([] : List Ev) = [] := rfl
        simp [transportCalls_append, hfacts.2.2.2 e2 hn, hnil, hk]
      | none =>
        refine ⟨k + 1, ?_⟩
        simp [transportCalls_append, (hfacts.2.2.1 hn).1, hk, List.replicate_succ]

/-- With a post-receive hook configured, the loop calls it exactly once
per attempt on which the transport returned a response whose body was
read successfully. -/
theorem doAttempts_afterHook_count (env : Env β υ) (c : Client β) (q : Request β)
    (ob : String) (out : OutTarget)
    (hsome : c.AfterResponse.isSome = true)
    (hn : env.newRequest q.method q.url = none) :
    ∀ (fuel attempt : Nat) (resp : Option HttpResp) (lastErr : Option LastErr),
      afterHookCount (doAttempts env c q ob out fuel attempt resp lastErr).trace =
        ((natRange attempt
            (transportCount (doAttempts env c q ob out fuel attempt resp lastErr).trace)).filter
          (fun i => attemptReadOk env (buildRequest env q ob) i)).length := by
  intro fuel
  induction fuel with
  | zero =>
    intro attempt resp lastErr
    rfl
  | succ f ih =>
    intro attempt resp lastErr
    have hfacts := attemptStep_evs_facts env c q ob out attempt
    simp only [doAttempts]
    cases hs : attemptStep env c q ob out attempt with
    | done rr e w evs =>
      rw [hs] at hfacts
      simp only [stepEvs] at hfacts
      have hcalls := (hfacts.2.2.1 hn).1
      have hafter := (hfacts.2.2.1 hn).2 hsome
      have hcount : transportCount evs = 1 := by
        unfold transportCount
        rw [hcalls]
        rfl
      simp only [hcount, hafter, natRange_succ, natRange_zero]
      cases hro : attemptReadOk env (buildRequest env q ob) attempt <;> simp [hro]
    | retry rr le evs =>
      rw [hs] at hfacts
      simp only [stepEvs] at hfacts
      have hcalls := (hfacts.2.2.1 hn).1
      have hafter := (hfacts.2.2.1 hn).2 hsome
      have hcount : transportCount evs = 1 := by
        unfold transportCount
        rw [hcalls]
        rfl
      have hrec := ih (attempt + 1) rr (some le)
      simp only [afterHookCount_append, transportCount_append, hcount, hafter, hrec]
      have hnr : 1 + transportCount (doAttempts env c q ob out f (attempt + 1) rr
          (some le)).trace =
          transportCount (doAttempts env c q ob out f (attempt + 1) rr (some le)).trace + 1 := by
        omega
      rw [hnr, natRange_succ]
      cases hro : attemptReadOk env (buildRequest env q ob) attempt
      · simp [hro]
      · simp [hro]
        omega

/-- If the first `k` attempts are retryable failures and attempt `k`
produces a response whose body reads back but whose post-receive hook
errors, the loop stops right there: the hook error is returned together
with that response, after exactly `k + 1` transport calls. -/
theorem doAttempts_hookErr_stops (env : Env β υ) (c : Client β) (q : Request β)
    (ob : String) (out : OutTarget) (hkf : MResponse → Except String MResponse)
    (hh : c.AfterResponse = some hkf)
    (hn : env.newRequest q.method q.url = none) :
    ∀ (k fuel attempt : Nat) (resp : Option HttpResp) (lastErr : Option LastErr)
      (r : HttpResp) (raw e : String),
      (∀ i, i < k → retryableAt env c (buildRequest env q ob) (attempt + i)) →
      k < fuel →
      env.transport (attempt + k) (buildRequest env q ob) = .success r →
      r.body.readResult = .ok raw →
      hkf (mkMResponse r raw) = .error e →
      (doAttempts env c q ob out fuel attempt resp lastErr).resp = some r ∧
      (doAttempts env c q ob out fuel attempt resp lastErr).err =
        some (.afterHookFailed e) ∧
      (doAttempts env c q ob out fuel attempt resp lastErr).written = none ∧
      transportCount (doAttempts env c q ob out fuel attempt resp lastErr).trace = k + 1 := by
  intro k
  induction k with
  | zero =>
    intro fuel attempt resp lastErr r raw e _hret hfuel ht hread hhe
    cases fuel with
    | zero => omega
    | succ f =>
      have hho : hookOutcome c (mkMResponse r raw) = .error e := by
        simp [hookOutcome, hh, hhe]
      have hstep := attemptStep_hookErr env c q ob out attempt r raw e hn
        (by simpa using ht) hread hho
      simp only [doAttempts, hstep]
      refine ⟨trivial, trivial, trivial, ?_⟩
      unfold transportCount
      rw [hookCallEvs_calls]
      rfl
  | succ k2 ih =>
    intro fuel attempt resp lastErr r raw e hret hfuel ht hread hhe
    cases fuel with
    | zero => omega
    | succ f =>
      obtain ⟨rr, le, evs, hstep, hcalls⟩ := attemptStep_retryable env c q ob out attempt hn
        (by simpa using hret 0 (by omega))
      simp only [doAttempts, hstep]
      have hrec := ih f (attempt + 1) rr (some le) r raw e
        (fun i hi => by
          have h2 := hret (i + 1) (by omega)
          rwa [show attempt + (i + 1) = attempt + 1 + i by omega] at h2)
        (by omega)
        (by rwa [show attempt + 1 + k2 = attempt + (k2 + 1) by omega])
        hread hhe
      refine ⟨hrec.1, hrec.2.1, hrec.2.2.1, ?_⟩
      have hcount : transportCount evs = 1 := by
        unfold transportCount
        rw [hcalls]
        rfl
      simp only [transportCount_append, hcount, hrec.2.2.2]
      omega

/-! ## Entry lemmas -/

/-- A call that resolves its URL and passes the pre-send hook reaches
the marshal-and-loop stage with the (possibly hook-rewritten) request
descriptor and the pre-send trace. -/
theorem DoRequest_reaches (lib : URLLib U) (env : Env β υ) (c : Client β)
    (method rawURL : String) (body : Option β) (out : OutTarget)
    (headers : List (String × String)) (fullURL : String) (muxReq2 : Request β)
    (hurl : resolveURL lib c rawURL = .ok fullURL)
    (hpre : preOutcome c (initialRequest c method fullURL headers body) = .ok muxReq2) :
    DoRequest lib env c method rawURL body out headers =
      doMarshalAndLoop env c muxReq2 out (hookPrefix c) := by
  cases hb : c.BeforeRequest with
  | none =>
    simp only [preOutcome, hb, Except.ok.injEq] at hpre
    simp [DoRequest, hurl, hb, hookPrefix, hpre]
  | some bh =>
    simp only [preOutcome, hb] at hpre
    simp [DoRequest, hurl, hb, hookPrefix, hpre]

theorem hookPrefix_calls (c : Client β) : transportCalls (hookPrefix c) = [] := by
  cases hb : c.BeforeRequest <;> simp [hookPrefix, hb, transportCalls]

theorem hookPrefix_sleeps (c : Client β) : sleeps (hookPrefix c) = [] := by
  cases hb : c.BeforeRequest <;> simp [hookPrefix, hb, sleeps]

theorem hookPrefix_after (c : Client β) : afterHookCount (hookPrefix c) = 0 := by
  cases hb : c.BeforeRequest <;> simp [hookPrefix, hb, afterHookCount]

theorem hookPrefix_marshal (c : Client β) : marshalCount (hookPrefix c) = 0 := by
  cases hb : c.BeforeRequest <;> simp [hookPrefix, hb, marshalCount]

theorem hookPrefix_before_of_some (c : Client β)
    (bh : Request β → Except String (Request β)) (hb : c.BeforeRequest = some bh) :
    beforeHookCount (hookPrefix c) = 1 := by
  simp [hookPrefix, hb, beforeHookCount]

theorem marshalEvs_calls (q : Request β) (ob : String) :
    transportCalls (marshalEvs q ob) = [] := by
  cases hb : q.body <;> simp [marshalEvs, hb, transportCalls]

theorem marshalEvs_sleeps (q : Request β) (ob : String) :
    sleeps (marshalEvs q ob) = [] := by
  cases hb : q.body <;> simp [marshalEvs, hb, sleeps]

theorem marshalEvs_after (q : Request β) (ob : String) :
    afterHookCount (marshalEvs q ob) = 0 := by
  cases hb : q.body <;> simp [marshalEvs, hb, afterHookCount]

theorem marshalEvs_before (q : Request β) (ob : String) :
    beforeHookCount (marshalEvs q ob) = 0 := by
  cases hb : q.body <;> simp [marshalEvs, hb, beforeHookCount]

theorem marshalEvs_count_some (q : Request β) (ob : String) (bv : β)
    (hb : q.body = some bv) : marshalCount (marshalEvs q ob) = 1 := by
  simp [marshalEvs, hb, marshalCount]

theorem transportCount_of_calls_nil (t : List Ev) (h : transportCalls t = []) :
    transportCount t = 0 := by
  unfold transportCount
  rw [h]
  rfl

/-- Marshal failure aborts before the loop. -/
theorem doMarshalAndLoop_marshal_err (env : Env β υ) (c : Client β) (q : Request β)
    (out : OutTarget) (pre : List Ev) (bv : β) (e : String)
    (hbv : q.body = some bv) (hem : env.marshal bv = .error e) :
    doMarshalAndLoop env c q out pre = ⟨c, none, some (.marshalFailed e), none, pre⟩ := by
  simp [doMarshalAndLoop, hbv, hem]

/-- With `origBody` the marshalled body bytes (or the zero value for a
nil body), the marshal stage emits its event and runs the loop. -/
theorem doMarshalAndLoop_ok (env : Env β υ) (c : Client β) (q : Request β)
    (out : OutTarget) (pre : List Ev) (ob : String)
    (hmar : marshalsTo env q.body ob) :
    doMarshalAndLoop env c q out pre =
      (let R := doAttempts env c q ob out (c.maxRetries + 1).toNat 0 none none
       ⟨R.clientAfter, R.resp, R.err, R.written, (pre ++ marshalEvs q ob) ++ R.trace⟩) := by
  cases hbv : q.body with
  | none =>
    have hob : ob = "" := by simpa [marshalsTo, hbv] using hmar
    subst hob
    simp [doMarshalAndLoop, hbv, marshalEvs]
  | some bv =>
    have hok : env.marshal bv = .ok ob := by simpa [marshalsTo, hbv] using hmar
    simp [doMarshalAndLoop, hbv, hok, marshalEvs]

/-- `DoRequest` returns the client unchanged (its headers map and every
other field): the Go method only reads `c`. -/
theorem DoRequest_client (lib : URLLib U) (env : Env β υ) (c : Client β)
    (method rawURL : String) (body : Option β) (out : OutTarget)
    (headers : List (String × String)) :
    (DoRequest lib env c method rawURL body out headers).clientAfter = c := by
  unfold DoRequest
  cases hu : resolveURL lib c rawURL with
  | error e => rfl
  | ok fullURL =>
    have hml : ∀ (q : Request β) (pre : List Ev),
        (doMarshalAndLoop env c q out pre).clientAfter = c := by
      intro q pre
      cases hbv : q.body with
      | none => simp [doMarshalAndLoop, hbv, doAttempts_client]
      | some bv =>
        cases hm : env.marshal bv with
        | error e => simp [doMarshalAndLoop, hbv, hm]
        | ok bs => simp [doMarshalAndLoop, hbv, hm, doAttempts_client]
    cases hb : c.BeforeRequest with
    | none => simp [hml]
    | some bh =>
      cases hbh : bh (initialRequest c method fullURL headers body) with
      | error e => simp [hbh]
      | ok q2 => simp [hbh, hml]

/-! ## Concrete instances used by the witnesses -/

/-- A URL library over raw strings in which every URL is absolute. -/
def trivLib : URLLib String :=
  ⟨fun s => .ok s, fun _ => true, fun _ r => r, id⟩

/-- A toy URL library: only `"http://x"` is absolute, and reference
resolution is concatenation. -/
def toyLib : URLLib String :=
  ⟨fun s => .ok s, fun s => s == "http://x", fun b r => b ++ r, id⟩

/-- A transport that fails every call. -/
def failEnv : Env Unit Unit :=
  ⟨fun _ => .ok "", fun _ => .ok (), fun _ _ => .failure "net down", fun _ _ => none, id⟩

/-- A transport that always answers HTTP 500 with body `"oops"`. -/
def status500Env : Env Unit Unit :=
  ⟨fun _ => .ok "", fun _ => .ok (),
   fun _ _ => .success ⟨500, [], ⟨.ok "oops"⟩⟩, fun _ _ => none, id⟩

/-- A transport whose 200-response body fails to read. -/
def readFailEnv : Env Unit Unit :=
  ⟨fun _ => .ok "", fun _ => .ok (),
   fun _ _ => .success ⟨200, [], ⟨.error "read boom"⟩⟩, fun _ _ => none, id⟩

/-- A transport that always answers HTTP 200 with body `"hello"`. -/
def okEnv : Env Unit Unit :=
  ⟨fun _ => .ok "JB", fun _ => .ok (),
   fun _ _ => .success ⟨200, [], ⟨.ok "hello"⟩⟩, fun _ _ => none, id⟩

/-! ## The claims -/

/-- C5: for every absolute request URL, `resolveURL` returns it unaltered
regardless of the configured base URL; for a relative URL with a base
URL, the result is the library's reference resolution of (base,
relative); for a relative URL with no base URL, the input string is
passed through unresolved. -/
theorem C5_resolveURL_spec {U β : Type} (lib : URLLib U) (c : Client β)
    (input : String) (u : U)
    (hp : lib.parse input = .ok u) :
    (lib.isAbs u = true → resolveURL lib c input = .ok input) ∧
    (lib.isAbs u = false → c.BaseURL = "" → resolveURL lib c input = .ok input) ∧
    (∀ b, lib.isAbs u = false → c.BaseURL ≠ "" → lib.parse c.BaseURL = .ok b →
      resolveURL lib c input = .ok (lib.render (lib.resolveReference b u))) := by
  refine ⟨?_, ?_, ?_⟩
  · intro ha
    simp [resolveURL, hp, ha]
  · intro ha hb
    simp [resolveURL, hp, ha, hb]
  · intro b ha hb hpb
    simp [resolveURL, hp, ha, hb, hpb]

theorem C5_resolveURL_spec_witness :
    (toyLib.isAbs "http://x" = true ∧
      resolveURL toyLib (SetBaseURL (NewClient Unit) "https://api") "http://x" =
        .ok "http://x") ∧
    resolveURL toyLib (NewClient Unit) "/items" = .ok "/items" ∧
    resolveURL toyLib (SetBaseURL (NewClient Unit) "https://api") "/items" =
      .ok "https://api/items" := by
  refine ⟨⟨by decide, ?_⟩, ?_, ?_⟩
  · exact (C5_resolveURL_spec toyLib (SetBaseURL (NewClient Unit) "https://api")
      "http://x" "http://x" rfl).1 (by decide)
  · exact (C5_resolveURL_spec toyLib (NewClient Unit) "/items" "/items" rfl).2.1
      (by decide) rfl
  · exact (C5_resolveURL_spec toyLib (SetBaseURL (NewClient Unit) "https://api")
      "/items" "/items" rfl).2.2 "https://api" (by decide) (by decide) rfl

/-- C6: in the header merge of `DoRequest`, a per-call key overrides a
client-default key of the same name, a default key that is not
overridden keeps its default value in the merged map, and the client's
stored default header map is unchanged by the call. -/
theorem C6_header_merge (ds os : List (String × String)) (k : String)
    (hno : (hkeys os).Nodup) (hnd : (hkeys ds).Nodup) :
    (∀ v, hget os k = some v → hget (mergeHeaders ds os) k = some v) ∧
    (hget os k = none → hget (mergeHeaders ds os) k = hget ds k) ∧
    (∀ (U β υ : Type) (lib : URLLib U) (env : Env β υ) (c : Client β)
       (method rawURL : String) (body : Option β) (out : OutTarget)
       (headers : List (String × String)),
      (DoRequest lib env c method rawURL body out headers).clientAfter.headers =
        c.headers) := by
  refine ⟨?_, ?_, ?_⟩
  · intro v hv
    rw [hget_mergeHeaders, lookupLast_eq_hget os k hno, hv]
  · intro hvn
    rw [hget_mergeHeaders, lookupLast_eq_none os k ((hget_eq_none_iff os k).1 hvn),
      lookupLast_eq_hget ds k hnd]
  · intro U β υ lib env c method rawURL body out headers
    rw [DoRequest_client]

theorem C6_header_merge_witness :
    ((hkeys [("B", "3")]).Nodup ∧
      hget (mergeHeaders [("A", "1"), ("B", "2")] [("B", "3")]) "B" = some "3") ∧
    hget (mergeHeaders [("A", "1"), ("B", "2")] [("B", "3")]) "A" = some "1" ∧
    (DoRequest trivLib failEnv (SetHeader (NewClient Unit) "A" "1") "GET" "http://x"
      none .noOut [("B", "3")]).clientAfter.headers =
      (SetHeader (NewClient Unit) "A" "1").headers := by
  have h := C6_header_merge [("A", "1"), ("B", "2")] [("B", "3")] "B"
    (by decide) (by decide)
  have h2 := C6_header_merge [("A", "1"), ("B", "2")] [("B", "3")] "A"
    (by decide) (by decide)
  refine ⟨⟨by decide, h.1 "3" (by decide)⟩, ?_, ?_⟩
  · rw [h2.2.1 (by decide)]
    decide
  · exact h.2.2 String Unit Unit trivLib failEnv (SetHeader (NewClient Unit) "A" "1")
      "GET" "http://x" none .noOut [("B", "3")]

/-- C3: when the pre-send hook is set and returns an error, `DoRequest`
returns that error wrapped as a hook error with no transport invocation;
and whenever the URL resolves, the pre-send hook runs exactly once per
logical call, not once per retry attempt. -/
theorem C3_before_hook {U β υ : Type} (lib : URLLib U) (env : Env β υ) (c : Client β)
    (method rawURL : String) (body : Option β) (out : OutTarget)
    (headers : List (String × String)) (fullURL : String)
    (bh : Request β → Except String (Request β))
    (hurl : resolveURL lib c rawURL = .ok fullURL)
    (hbh : c.BeforeRequest = some bh) :
    beforeHookCount (DoRequest lib env c method rawURL body out headers).trace = 1 ∧
    (∀ e, bh (initialRequest c method fullURL headers body) = .error e →
      (DoRequest lib env c method rawURL body out headers).resp = none ∧
      (DoRequest lib env c method rawURL body out headers).err =
        some (.beforeHookFailed e) ∧
      transportCount (DoRequest lib env c method rawURL body out headers).trace = 0) := by
  constructor
  · cases hbhe : bh (initialRequest c method fullURL headers body) with
    | error e => simp [DoRequest, hurl, hbh, hbhe, beforeHookCount]
    | ok q2 =>
      rw [DoRequest_reaches lib env c method rawURL body out headers fullURL q2 hurl
        (by simp [preOutcome, hbh, hbhe])]
      cases hqb : q2.body with
      | none =>
        rw [doMarshalAndLoop_ok env c q2 out (hookPrefix c) ""
          (by simp [marshalsTo, hqb])]
        simp only [beforeHookCount_append]
        rw [hookPrefix_before_of_some c bh hbh, marshalEvs_before,
          (doAttempts_admin_counts env c q2 "" out _ 0 none none).1]
      | some bv =>
        cases hm : env.marshal bv with
        | error e =>
          rw [doMarshalAndLoop_marshal_err env c q2 out (hookPrefix c) bv e hqb hm]
          exact hookPrefix_before_of_some c bh hbh
        | ok bs =>
          rw [doMarshalAndLoop_ok env c q2 out (hookPrefix c) bs
            (by simp [marshalsTo, hqb, hm])]
          simp only [beforeHookCount_append]
          rw [hookPrefix_before_of_some c bh hbh, marshalEvs_before,
            (doAttempts_admin_counts env c q2 bs out _ 0 none none).1]
  · intro e hbhe
    simp [DoRequest, hurl, hbh, hbhe, transportCount, transportCalls]

theorem C3_before_hook_witness :
    beforeHookCount (DoRequest trivLib failEnv
      (SetBeforeRequestHook (NewClient Unit) (fun _ => .error "nope"))
      "GET" "http://x" none .noOut []).trace = 1 ∧
    (DoRequest trivLib failEnv
      (SetBeforeRequestHook (NewClient Unit) (fun _ => .error "nope"))
      "GET" "http://x" none .noOut []).err = some (.beforeHookFailed "nope") ∧
    transportCount (DoRequest trivLib failEnv
      (SetBeforeRequestHook (NewClient Unit) (fun _ => .error "nope"))
      "GET" "http://x" none .noOut []).trace = 0 := by
  have h := C3_before_hook trivLib failEnv
    (SetBeforeRequestHook (NewClient Unit) (fun _ => .error "nope"))
    "GET" "http://x" none .noOut [] "http://x" (fun _ => .error "nope") rfl rfl
  exact ⟨h.1, (h.2 "nope" rfl).2.1, (h.2 "nope" rfl).2.2⟩

/-- C9: after `SetMaxRetries` with a negative value, a call with a valid
URL, nil body and non-failing pre-send hook runs the loop zero times:
no transport attempt, a nil response, and a non-nil error reporting
`maxRetries + 1` attempts and wrapping a nil last error. -/
theorem C9_negative_retries {U β υ : Type} (lib : URLLib U) (env : Env β υ)
    (c : Client β) (method rawURL : String) (body : Option β) (out : OutTarget)
    (headers : List (String × String)) (fullURL : String) (muxReq2 : Request β)
    (hurl : resolveURL lib c rawURL = .ok fullURL)
    (hpre : preOutcome c (initialRequest c method fullURL headers body) = .ok muxReq2)
    (hbody : muxReq2.body = none)
    (hm0 : -(2 ^ 63) ≤ c.maxRetries) (hm1 : c.maxRetries < 0) :
    (DoRequest lib env c method rawURL body out headers).resp = none ∧
    (DoRequest lib env c method rawURL body out headers).err =
      some (.exhausted (c.maxRetries + 1) none) ∧
    (DoRequest lib env c method rawURL body out headers).written = none ∧
    transportCount (DoRequest lib env c method rawURL body out headers).trace = 0 := by
  rw [DoRequest_reaches lib env c method rawURL body out headers fullURL muxReq2
    hurl hpre,
    doMarshalAndLoop_ok env c muxReq2 out (hookPrefix c) ""
      (by simp [marshalsTo, hbody])]
  have hz : (c.maxRetries + 1).toNat = 0 := by omega
  rw [hz]
  have hwr : wrap64 (c.maxRetries + 1) = c.maxRetries + 1 :=
    wrap64_eq_self _ (by omega) (by omega)
  refine ⟨rfl, ?_, rfl, ?_⟩
  · simp only [doAttempts]
    rw [hwr]
  · apply transportCount_of_calls_nil
    simp only [doAttempts]
    rw [List.append_nil, transportCalls_append, hookPrefix_calls, marshalEvs_calls]
    rfl

theorem C9_negative_retries_witness :
    ((-3 : Int) < 0) ∧
    (DoRequest trivLib failEnv (SetMaxRetries (NewClient Unit) (-3)) "GET" "http://x"
      none .noOut []).resp = none ∧
    (DoRequest trivLib failEnv (SetMaxRetries (NewClient Unit) (-3)) "GET" "http://x"
      none .noOut []).err = some (.exhausted (-2) none) ∧
    transportCount (DoRequest trivLib failEnv (SetMaxRetries (NewClient Unit) (-3))
      "GET" "http://x" none .noOut []).trace = 0 := by
  have h := C9_negative_retries trivLib failEnv (SetMaxRetries (NewClient Unit) (-3))
    "GET" "http://x" none .noOut [] "http://x"
    (initialRequest (SetMaxRetries (NewClient Unit) (-3)) "GET" "http://x" [] none)
    rfl rfl rfl (by decide) (by decide)
  exact ⟨by decide, h.1, h.2.1, h.2.2.2⟩

/-- C7: a non-nil body is serialized exactly once, after the pre-send
hook and before the retry loop, the identical bytes are handed to the
transport on every attempt, and a serialization failure is returned
before any transport attempt. -/
theorem C7_body_marshalled_once {U β υ : Type} (lib : URLLib U) (env : Env β υ)
    (c : Client β) (method rawURL : String) (body : Option β) (out : OutTarget)
    (headers : List (String × String)) (fullURL : String) (muxReq2 : Request β)
    (bv : β)
    (hurl : resolveURL lib c rawURL = .ok fullURL)
    (hpre : preOutcome c (initialRequest c method fullURL headers body) = .ok muxReq2)
    (hbv : muxReq2.body = some bv) :
    (∀ e, env.marshal bv = .error e →
      DoRequest lib env c method rawURL body out headers =
        ⟨c, none, some (.marshalFailed e), none, hookPrefix c⟩ ∧
      transportCount (DoRequest lib env c method rawURL body out headers).trace = 0) ∧
    (∀ bs, env.marshal bv = .ok bs →
      marshalCount (DoRequest lib env c method rawURL body out headers).trace = 1 ∧
      (∃ rest, (DoRequest lib env c method rawURL body out headers).trace =
          hookPrefix c ++ [.marshalled bs] ++ rest ∧
        marshalCount rest = 0 ∧ beforeHookCount rest = 0) ∧
      sentBodies (DoRequest lib env c method rawURL body out headers).trace =
        List.replicate
          (transportCount (DoRequest lib env c method rawURL body out headers).trace)
          (some bs)) := by
  rw [DoRequest_reaches lib env c method rawURL body out headers fullURL muxReq2
    hurl hpre]
  constructor
  · intro e hme
    rw [doMarshalAndLoop_marshal_err env c muxReq2 out (hookPrefix c) bv e hbv hme]
    exact ⟨rfl, transportCount_of_calls_nil _ (hookPrefix_calls c)⟩
  · intro bs hms
    rw [doMarshalAndLoop_ok env c muxReq2 out (hookPrefix c) bs
      (by simp [marshalsTo, hbv, hms])]
    have hme : marshalEvs muxReq2 bs = [.marshalled bs] := by
      simp [marshalEvs, hbv]
    simp only [hme]
    refine ⟨?_, ?_, ?_⟩
    · simp only [marshalCount_append, hookPrefix_marshal,
        (doAttempts_admin_counts env c muxReq2 bs out _ 0 none none).2]
      simp [marshalCount]
    · refine ⟨(doAttempts env c muxReq2 bs out (c.maxRetries + 1).toNat 0 none none).trace,
        by simp, ?_, ?_⟩
      · exact (doAttempts_admin_counts env c muxReq2 bs out _ 0 none none).2
      · exact (doAttempts_admin_counts env c muxReq2 bs out _ 0 none none).1
    · obtain ⟨k, hk⟩ := doAttempts_calls_replicate env c muxReq2 bs out
        (c.maxRetries + 1).toNat 0 none none
      have hb : (buildRequest env muxReq2 bs).body = some bs := by
        simp [buildRequest, hbv]
      unfold sentBodies transportCount
      rw [transportCalls_append, transportCalls_append, hookPrefix_calls, hk]
      simp [transportCalls, hb]

theorem C7_body_marshalled_once_witness :
    marshalCount (DoRequest trivLib failEnv (SetMaxRetries (NewClient Unit) 1) "POST"
      "http://x" (some ()) .noOut []).trace = 1 ∧
    sentBodies (DoRequest trivLib failEnv (SetMaxRetries (NewClient Unit) 1) "POST"
      "http://x" (some ()) .noOut []).trace =
      List.replicate (transportCount (DoRequest trivLib failEnv
        (SetMaxRetries (NewClient Unit) 1) "POST" "http://x" (some ()) .noOut
        []).trace) (some "") := by
  have h := (C7_body_marshalled_once trivLib failEnv (SetMaxRetries (NewClient Unit) 1)
    "POST" "http://x" (some ()) .noOut [] "http://x"
    (initialRequest (SetMaxRetries (NewClient Unit) 1) "POST" "http://x" [] (some ()))
    () rfl rfl rfl).2 "" rfl
  exact ⟨h.1, h.2.2⟩

/-- C1, counterexample to the claim as stated: with `backoff = 2^62 ns`
and `maxRetries = 2` against an always-failing transport, the sleep
between attempts 1 and 2 is the `int64`-wrapped product
`2^62 * (1 << 1) = -2^63` (`time.Sleep` of a negative duration), not the
claimed `backoff * 2^1 = 2^63`, which does not fit in `time.Duration`. -/
theorem C1_backoff_overflow_cex :
    (sleeps (DoRequest trivLib failEnv
      (SetBackoff (SetMaxRetries (NewClient Unit) 2) (2 ^ 62))
      "GET" "http://x" none .noOut []).trace)[1]? = some (-(2 ^ 63)) ∧
    ((2 ^ 62 : Int) * 2 ^ 1 ≠ -(2 ^ 63)) ∧
    transportCount (DoRequest trivLib failEnv
      (SetBackoff (SetMaxRetries (NewClient Unit) 2) (2 ^ 62))
      "GET" "http://x" none .noOut []).trace = 3 := by
  refine ⟨?_, by decide, ?_⟩ <;> decide

/-- C1, amended: for every client with `0 ≤ maxRetries = N < 2^63 - 1`
whose call reaches the retry loop (URL resolves, pre-send hook and
serialization succeed, request construction succeeds) and whose
transport fails on every invocation, `DoRequest` invokes the transport
exactly `N + 1` times, sleeps the 64-bit-wrapped product
`backoff * (1 << i)` after failed attempt `i` — equal to `backoff * 2^i`
whenever that product fits in `int64` — and returns a non-nil error that
reports `N + 1` attempts and wraps the last recorded transport error. -/
theorem C1_exhausts_attempts {U β υ : Type} (lib : URLLib U) (env : Env β υ)
    (c : Client β) (method rawURL : String) (body : Option β) (out : OutTarget)
    (headers : List (String × String)) (fullURL : String) (muxReq2 : Request β)
    (ob : String) (f : Nat → String)
    (hurl : resolveURL lib c rawURL = .ok fullURL)
    (hpre : preOutcome c (initialRequest c method fullURL headers body) = .ok muxReq2)
    (hmar : marshalsTo env muxReq2.body ob)
    (hn : env.newRequest muxReq2.method muxReq2.url = none)
    (hf : ∀ n r, env.transport n r = .failure (f n))
    (hm0 : 0 ≤ c.maxRetries) (hm1 : c.maxRetries < 2 ^ 63 - 1) :
    transportCount (DoRequest lib env c method rawURL body out headers).trace =
      (c.maxRetries + 1).toNat ∧
    (DoRequest lib env c method rawURL body out headers).err =
      some (.exhausted (c.maxRetries + 1) (some (.network (f c.maxRetries.toNat)))) ∧
    (DoRequest lib env c method rawURL body out headers).resp = none ∧
    sleeps (DoRequest lib env c method rawURL body out headers).trace =
      (List.range (c.maxRetries + 1).toNat).map (fun i => sleepDur c.backoff i) ∧
    (∀ i : Nat, -(2 ^ 63) ≤ c.backoff * 2 ^ i → c.backoff * 2 ^ i < 2 ^ 63 →
      sleepDur c.backoff i = c.backoff * 2 ^ i) := by
  rw [DoRequest_reaches lib env c method rawURL body out headers fullURL muxReq2
    hurl hpre,
    doMarshalAndLoop_ok env c muxReq2 out (hookPrefix c) ob hmar]
  have hfz : (c.maxRetries + 1).toNat = c.maxRetries.toNat + 1 := by omega
  rw [doAttempts_all_fail env c muxReq2 ob out f hn hf]
  rw [hfz]
  have hwr : wrap64 (c.maxRetries + 1) = c.maxRetries + 1 :=
    wrap64_eq_self _ (by omega) (by omega)
  refine ⟨?_, ?_, rfl, ?_, fun i h1 h2 => sleepDur_eq_exact c.backoff i h1 h2⟩
  · show transportCount ((hookPrefix c ++ marshalEvs muxReq2 ob) ++
      failTrace (buildRequest env muxReq2 ob) c.backoff 0 (c.maxRetries.toNat + 1)) =
      c.maxRetries.toNat + 1
    rw [transportCount_append, transportCount_of_calls_nil _
      (by rw [transportCalls_append, hookPrefix_calls, marshalEvs_calls]; rfl),
      transportCount_failTrace]
    omega
  · show some (MErr.exhausted (wrap64 (c.maxRetries + 1))
        (some (.network (f (0 + c.maxRetries.toNat))))) =
      some (MErr.exhausted (c.maxRetries + 1) (some (.network (f c.maxRetries.toNat))))
    rw [hwr, Nat.zero_add]
  · show sleeps ((hookPrefix c ++ marshalEvs muxReq2 ob) ++
      failTrace (buildRequest env muxReq2 ob) c.backoff 0 (c.maxRetries.toNat + 1)) =
      (List.range (c.maxRetries.toNat + 1)).map (fun i => sleepDur c.backoff i)
    rw [sleeps_append, sleeps_append, hookPrefix_sleeps, marshalEvs_sleeps,
      sleeps_failTrace, natRange_eq_range]
    rfl

theorem C1_exhausts_attempts_witness :
    ((0 : Int) ≤ 3) ∧
    transportCount (DoRequest trivLib failEnv
      (SetBackoff (SetMaxRetries (NewClient Unit) 3) 7)
      "GET" "http://x" none .noOut []).trace = 4 ∧
    (DoRequest trivLib failEnv (SetBackoff (SetMaxRetries (NewClient Unit) 3) 7)
      "GET" "http://x" none .noOut []).err =
      some (.exhausted 4 (some (.network "net down"))) ∧
    sleeps (DoRequest trivLib failEnv (SetBackoff (SetMaxRetries (NewClient Unit) 3) 7)
      "GET" "http://x" none .noOut []).trace = [7, 14, 28, 56] := by
  have h := C1_exhausts_attempts trivLib failEnv
    (SetBackoff (SetMaxRetries (NewClient Unit) 3) 7)
    "GET" "http://x" none .noOut [] "http://x"
    (initialRequest (SetBackoff (SetMaxRetries (NewClient Unit) 3) 7) "GET" "http://x"
      [] none)
    "" (fun _ => "net down") rfl rfl rfl rfl (fun n r => rfl) (by decide) (by decide)
  refine ⟨by decide, h.1, h.2.1, ?_⟩
  rw [h.2.2.2.1]
  decide

/-- C2: the code does treat a non-2xx status as a retryable failure,
sleeping with backoff and retrying; but the recorded last error carries
an empty body, not the response body: line 169 re-reads `resp.Body`
after line 148's `io.ReadAll` already exhausted it.  Here the transport
always answers HTTP 500 with body `"oops"`, `maxRetries = 1`,
`backoff = 7`: two attempts, sleeps 7 and 14, and the final error wraps
`HTTP 500: ` with an empty body even though the response body was
`"oops"`. -/
theorem C2_status_error_drops_body :
    (DoRequest trivLib status500Env (SetBackoff (SetMaxRetries (NewClient Unit) 1) 7)
      "GET" "http://x" none .noOut []).err =
      some (.exhausted 2 (some (.httpStatus 500 ""))) ∧
    (DoRequest trivLib status500Env (SetBackoff (SetMaxRetries (NewClient Unit) 1) 7)
      "GET" "http://x" none .noOut []).err ≠
      some (.exhausted 2 (some (.httpStatus 500 "oops"))) ∧
    (DoRequest trivLib status500Env (SetBackoff (SetMaxRetries (NewClient Unit) 1) 7)
      "GET" "http://x" none .noOut []).resp = some ⟨500, [], ⟨.ok "oops"⟩⟩ ∧
    transportCount (DoRequest trivLib status500Env
      (SetBackoff (SetMaxRetries (NewClient Unit) 1) 7)
      "GET" "http://x" none .noOut []).trace = 2 ∧
    sleeps (DoRequest trivLib status500Env (SetBackoff (SetMaxRetries (NewClient Unit) 1) 7)
      "GET" "http://x" none .noOut []).trace = [7, 14] := by
  refine ⟨?_, ?_, ?_, ?_, ?_⟩ <;> decide

/-- C4, counterexample to the claim as stated: the transport returns a
response (HTTP 200) but reading its body fails, so `DoRequest` returns
the read error before invoking the configured `AfterResponse` hook: one
attempt with a response, zero hook invocations. -/
theorem C4_read_failure_skips_hook_cex :
    transportCount (DoRequest trivLib readFailEnv
      (SetAfterResponseHook (NewClient Unit) (fun mr => .ok mr))
      "GET" "http://x" none .noOut []).trace = 1 ∧
    afterHookCount (DoRequest trivLib readFailEnv
      (SetAfterResponseHook (NewClient Unit) (fun mr => .ok mr))
      "GET" "http://x" none .noOut []).trace = 0 ∧
    (DoRequest trivLib readFailEnv
      (SetAfterResponseHook (NewClient Unit) (fun mr => .ok mr))
      "GET" "http://x" none .noOut []).err = some (.readBodyFailed "read boom") := by
  refine ⟨?_, ?_, ?_⟩ <;> decide

/-- C4, amended: the post-receive hook is invoked exactly once per
attempt on which the transport returned a response **and the body was
read successfully** (a body-read failure returns before the hook); and
if the hook returns an error on such an attempt, `DoRequest` returns
immediately — no further transport call — with the response alongside
the wrapped hook error. -/
theorem C4_after_hook {U β υ : Type} (lib : URLLib U) (env : Env β υ) (c : Client β)
    (method rawURL : String) (body : Option β) (out : OutTarget)
    (headers : List (String × String)) (fullURL : String) (muxReq2 : Request β)
    (ob : String) (hkf : MResponse → Except String MResponse)
    (hurl : resolveURL lib c rawURL = .ok fullURL)
    (hpre : preOutcome c (initialRequest c method fullURL headers body) = .ok muxReq2)
    (hmar : marshalsTo env muxReq2.body ob)
    (hh : c.AfterResponse = some hkf)
    (hn : env.newRequest muxReq2.method muxReq2.url = none) :
    afterHookCount (DoRequest lib env c method rawURL body out headers).trace =
      ((List.range (transportCount
          (DoRequest lib env c method rawURL body out headers).trace)).filter
        (fun i => attemptReadOk env (buildRequest env muxReq2 ob) i)).length ∧
    (∀ (k : Nat) (r : HttpResp) (raw e : String),
      (∀ i, i < k → retryableAt env c (buildRequest env muxReq2 ob) i) →
      k < (c.maxRetries + 1).toNat →
      env.transport k (buildRequest env muxReq2 ob) = .success r →
      r.body.readResult = .ok raw →
      hkf (mkMResponse r raw) = .error e →
      (DoRequest lib env c method rawURL body out headers).resp = some r ∧
      (DoRequest lib env c method rawURL body out headers).err =
        some (.afterHookFailed e) ∧
      transportCount (DoRequest lib env c method rawURL body out headers).trace =
        k + 1) := by
  rw [DoRequest_reaches lib env c method rawURL body out headers fullURL muxReq2
    hurl hpre,
    doMarshalAndLoop_ok env c muxReq2 out (hookPrefix c) ob hmar]
  have hprenil : transportCalls (hookPrefix c ++ marshalEvs muxReq2 ob) = [] := by
    rw [transportCalls_append, hookPrefix_calls, marshalEvs_calls]
    rfl
  have hcount0 : transportCount (hookPrefix c ++ marshalEvs muxReq2 ob) = 0 :=
    transportCount_of_calls_nil _ hprenil
  have hafter0 : afterHookCount (hookPrefix c ++ marshalEvs muxReq2 ob) = 0 := by
    rw [afterHookCount_append, hookPrefix_after, marshalEvs_after]
  constructor
  · show afterHookCount ((hookPrefix c ++ marshalEvs muxReq2 ob) ++
      (doAttempts env c muxReq2 ob out (c.maxRetries + 1).toNat 0 none none).trace) = _
    rw [afterHookCount_append, hafter0, transportCount_append, hcount0,
      doAttempts_afterHook_count env c muxReq2 ob out (by simp [hh]) hn
        (c.maxRetries + 1).toNat 0 none none]
    rw [natRange_eq_range]
    simp
  · intro k r raw e hret hk ht hread hhe
    have h := doAttempts_hookErr_stops env c muxReq2 ob out hkf hh hn k
      (c.maxRetries + 1).toNat 0 none none r raw e
      (fun i hi => by simpa using hret i hi) hk (by simpa using ht) hread hhe
    refine ⟨h.1, h.2.1, ?_⟩
    show transportCount ((hookPrefix c ++ marshalEvs muxReq2 ob) ++
      (doAttempts env c muxReq2 ob out (c.maxRetries + 1).toNat 0 none none).trace) = _
    rw [transportCount_append, hcount0, h.2.2.2]
    omega

theorem C4_after_hook_witness :
    (DoRequest trivLib okEnv
      (SetAfterResponseHook (NewClient Unit) (fun _ => .error "reject"))
      "GET" "http://x" none .noOut []).resp = some ⟨200, [], ⟨.ok "hello"⟩⟩ ∧
    (DoRequest trivLib okEnv
      (SetAfterResponseHook (NewClient Unit) (fun _ => .error "reject"))
      "GET" "http://x" none .noOut []).err = some (.afterHookFailed "reject") ∧
    transportCount (DoRequest trivLib okEnv
      (SetAfterResponseHook (NewClient Unit) (fun _ => .error "reject"))
      "GET" "http://x" none .noOut []).trace = 1 := by
  have h := (C4_after_hook trivLib okEnv
    (SetAfterResponseHook (NewClient Unit) (fun _ => .error "reject"))
    "GET" "http://x" none .noOut [] "http://x"
    (initialRequest (SetAfterResponseHook (NewClient Unit) (fun _ => .error "reject"))
      "GET" "http://x" [] none)
    "" (fun _ => .error "reject") rfl rfl rfl rfl rfl).2 0
    ⟨200, [], ⟨.ok "hello"⟩⟩ "hello" "reject"
    (fun i hi => absurd hi (Nat.not_lt_zero i)) (by decide) rfl rfl rfl
  exact ⟨h.1, h.2.1, h.2.2⟩

/-- C8: on a 2xx response at the first attempt with a non-nil output
target, a string-pointer target receives exactly the raw response body
bytes, any other target is JSON-unmarshalled from those raw bytes, and
an unmarshal failure is returned immediately as a decode error with no
retry. -/
theorem C8_decode {U β υ : Type} (lib : URLLib U) (env : Env β υ) (c : Client β)
    (method rawURL : String) (body : Option β) (out : OutTarget)
    (headers : List (String × String)) (fullURL : String) (muxReq2 : Request β)
    (ob raw : String) (r : HttpResp)
    (hurl : resolveURL lib c rawURL = .ok fullURL)
    (hpre : preOutcome c (initialRequest c method fullURL headers body) = .ok muxReq2)
    (hmar : marshalsTo env muxReq2.body ob)
    (hn : env.newRequest muxReq2.method muxReq2.url = none)
    (hm : 0 ≤ c.maxRetries)
    (ht : env.transport 0 (buildRequest env muxReq2 ob) = .success r)
    (hread : r.body.readResult = .ok raw)
    (hhook : ∃ r2, hookOutcome c (mkMResponse r raw) = .ok r2)
    (hst1 : 200 ≤ r.statusCode) (hst2 : r.statusCode < 300) :
    (out = .strPtr →
      (DoRequest lib env c method rawURL body out headers).resp = some r ∧
      (DoRequest lib env c method rawURL body out headers).err = none ∧
      (DoRequest lib env c method rawURL body out headers).written =
        some (.str raw)) ∧
    (out = .jsonPtr →
      (∀ v, env.unmarshal raw = .ok v →
        (DoRequest lib env c method rawURL body out headers).resp = some r ∧
        (DoRequest lib env c method rawURL body out headers).err = none ∧
        (DoRequest lib env c method rawURL body out headers).written =
          some (.json v)) ∧
      (∀ e, env.unmarshal raw = .error e →
        (DoRequest lib env c method rawURL body out headers).resp = some r ∧
        (DoRequest lib env c method rawURL body out headers).err =
          some (.decodeFailed e) ∧
        (DoRequest lib env c method rawURL body out headers).written = none ∧
        transportCount
          (DoRequest lib env c method rawURL body out headers).trace = 1)) := by
  obtain ⟨r2, hr2⟩ := hhook
  have hst : ¬(r.statusCode < 200 ∨ 300 ≤ r.statusCode) := by omega
  have hfuel : 0 < (c.maxRetries + 1).toNat := by omega
  have hstep := attemptStep_success env c muxReq2 ob out 0 r raw r2 hn ht hread hr2 hst
  rw [DoRequest_reaches lib env c method rawURL body out headers fullURL muxReq2
    hurl hpre,
    doMarshalAndLoop_ok env c muxReq2 out (hookPrefix c) ob hmar]
  have hprenil : transportCalls (hookPrefix c ++ marshalEvs muxReq2 ob) = [] := by
    rw [transportCalls_append, hookPrefix_calls, marshalEvs_calls]
    rfl
  constructor
  · intro hout
    subst hout
    have hstep2 : attemptStep env c muxReq2 ob .strPtr 0 =
        .done (some r) none (some (.str raw))
          (hookCallEvs c (buildRequest env muxReq2 ob) (mkMResponse r raw)) := hstep
    rw [doAttempts_first_done env c muxReq2 ob .strPtr _ 0 none none _ _ _ _
      hfuel hstep2]
    exact ⟨rfl, rfl, rfl⟩
  · intro hout
    subst hout
    constructor
    · intro v huv
      have hstep2 : attemptStep env c muxReq2 ob .jsonPtr 0 =
          .done (some r) none (some (.json v))
            (hookCallEvs c (buildRequest env muxReq2 ob) (mkMResponse r raw)) := by
        rw [hstep, huv]
      rw [doAttempts_first_done env c muxReq2 ob .jsonPtr _ 0 none none _ _ _ _
        hfuel hstep2]
      exact ⟨rfl, rfl, rfl⟩
    · intro e hue
      have hstep2 : attemptStep env c muxReq2 ob .jsonPtr 0 =
          .done (some r) (some (.decodeFailed e)) none
            (hookCallEvs c (buildRequest env muxReq2 ob) (mkMResponse r raw)) := by
        rw [hstep, hue]
      rw [doAttempts_first_done env c muxReq2 ob .jsonPtr _ 0 none none _ _ _ _
        hfuel hstep2]
      refine ⟨rfl, rfl, rfl, ?_⟩
      show transportCount ((hookPrefix c ++ marshalEvs muxReq2 ob) ++
        hookCallEvs c (buildRequest env muxReq2 ob) (mkMResponse r raw)) = 1
      rw [transportCount_append, transportCount_of_calls_nil _ hprenil]
      unfold transportCount
      rw [hookCallEvs_calls]
      rfl

theorem C8_decode_witness :
    (DoRequest trivLib okEnv (NewClient Unit) "GET" "http://x" none .strPtr []).err =
      none ∧
    (DoRequest trivLib okEnv (NewClient Unit) "GET" "http://x" none .strPtr
      []).written = some (.str "hello") := by
  have h := (C8_decode trivLib okEnv (NewClient Unit) "GET" "http://x" none .strPtr []
    "http://x" (initialRequest (NewClient Unit) "GET" "http://x" [] none) "" "hello"
    ⟨200, [], ⟨.ok "hello"⟩⟩
    rfl rfl rfl rfl (by decide) rfl rfl ⟨_, rfl⟩ (by decide) (by decide)).1 rfl
  exact ⟨h.2.1, h.2.2⟩

/-- C10: even when the post-receive hook rewrites the descriptor's Body
field (returning an arbitrary modified descriptor `mr2`), the value
decoded into the output target is still derived from the raw body bytes
read from the transport before the hook ran; the decode step never
observes the hook's reassignment. -/
theorem C10_hook_body_invisible {U β υ : Type} (lib : URLLib U) (env : Env β υ)
    (c : Client β) (method rawURL : String) (body : Option β) (out : OutTarget)
    (headers : List (String × String)) (fullURL : String) (muxReq2 : Request β)
    (ob raw : String) (r : HttpResp) (hkf : MResponse → Except String MResponse)
    (mr2 : MResponse)
    (hurl : resolveURL lib c rawURL = .ok fullURL)
    (hpre : preOutcome c (initialRequest c method fullURL headers body) = .ok muxReq2)
    (hmar : marshalsTo env muxReq2.body ob)
    (hn : env.newRequest muxReq2.method muxReq2.url = none)
    (hm : 0 ≤ c.maxRetries)
    (hh : c.AfterResponse = some hkf)
    (ht : env.transport 0 (buildRequest env muxReq2 ob) = .success r)
    (hread : r.body.readResult = .ok raw)
    (hhk : hkf (mkMResponse r raw) = .ok mr2)
    (hst1 : 200 ≤ r.statusCode) (hst2 : r.statusCode < 300) :
    (out = .strPtr →
      (DoRequest lib env c method rawURL body out headers).written =
        some (.str raw)) ∧
    (out = .jsonPtr → ∀ v, env.unmarshal raw = .ok v →
      (DoRequest lib env c method rawURL body out headers).written =
        some (.json v)) := by
  have hst : ¬(r.statusCode < 200 ∨ 300 ≤ r.statusCode) := by omega
  have hfuel : 0 < (c.maxRetries + 1).toNat := by omega
  have hr2 : hookOutcome c (mkMResponse r raw) = .ok mr2 := by
    simp [hookOutcome, hh, hhk]
  have hstep := attemptStep_success env c muxReq2 ob out 0 r raw mr2 hn ht hread
    hr2 hst
  rw [DoRequest_reaches lib env c method rawURL body out headers fullURL muxReq2
    hurl hpre,
    doMarshalAndLoop_ok env c muxReq2 out (hookPrefix c) ob hmar]
  constructor
  · intro hout
    subst hout
    have hstep2 : attemptStep env c muxReq2 ob .strPtr 0 =
        .done (some r) none (some (.str raw))
          (hookCallEvs c (buildRequest env muxReq2 ob) (mkMResponse r raw)) := hstep
    rw [doAttempts_first_done env c muxReq2 ob .strPtr _ 0 none none _ _ _ _
      hfuel hstep2]
  · intro hout v huv
    subst hout
    have hstep2 : attemptStep env c muxReq2 ob .jsonPtr 0 =
        .done (some r) none (some (.json v))
          (hookCallEvs c (buildRequest env muxReq2 ob) (mkMResponse r raw)) := by
      rw [hstep, huv]
    rw [doAttempts_first_done env c muxReq2 ob .jsonPtr _ 0 none none _ _ _ _
      hfuel hstep2]

theorem C10_hook_body_invisible_witness :
    (DoRequest trivLib okEnv
      (SetAfterResponseHook (NewClient Unit)
        (fun mr => .ok ⟨mr.statusCode, mr.headers, "tampered"⟩))
      "GET" "http://x" none .strPtr []).written = some (.str "hello") ∧
    ("hello" ≠ "tampered") := by
  have h := (C10_hook_body_invisible trivLib okEnv
    (SetAfterResponseHook (NewClient Unit)
      (fun mr => .ok ⟨mr.statusCode, mr.headers, "tampered"⟩))
    "GET" "http://x" none .strPtr [] "http://x"
    (initialRequest (SetAfterResponseHook (NewClient Unit)
      (fun mr => .ok ⟨mr.statusCode, mr.headers, "tampered"⟩)) "GET" "http://x" [] none)
    "" "hello" ⟨200, [], ⟨.ok "hello"⟩⟩
    (fun mr => .ok ⟨mr.statusCode, mr.headers, "tampered"⟩) ⟨200, [], "tampered"⟩
    rfl rfl rfl rfl (by decide) rfl rfl rfl rfl (by decide) (by decide)).1 rfl
  exact ⟨h, by decide⟩

end Muxet
